/-
Verification of the MBD_CICDKits configuration core against its
natural-language specification.

The Lean definitions below are a shallow embedding of the Python source:
  * src/core/models.py   (ProjectConfig, StageConfig, WorkflowConfig,
                          ValidationSeverity, ValidationError, ValidationResult)
  * src/core/config.py   (save_config, load_config, update_config,
                          load_custom_workflow, _check_circular_dependencies)
  * src/utils/path_utils.py (sanitize_filename)

Modelling conventions:
  * Python strings are Lean `String`s; the required-field check
    `not value or not value.strip()` (true exactly when the string is
    empty or all-whitespace) is the decidable `isBlank`.
  * ISO-8601 timestamps produced by `datetime.now().isoformat()` are
    modelled by an abstract strictly-increasing clock of type `Nat`,
    with `0` playing the role of the empty string "" (Python falsiness
    of an unset timestamp).  Successive `now()` calls yield strictly
    increasing values, matching the strict growth of wall-clock
    microsecond timestamps between separate save operations.
  * The TOML file store is a key/value map from file names to parsed
    documents; a document is the association list produced by
    `to_dict` (tomli_w round-trips such documents losslessly).
  * Python exceptions are `Except` values; raising leaves the store
    unchanged exactly when the Python code has performed no write.
-/

import Mathlib

set_option maxRecDepth 10000

namespace MBD

/-! ## Data model: validation records (src/core/models.py) -/

/-- `ValidationSeverity` enum: ERROR blocks execution, WARNING/INFO do not. -/
inductive ValidationSeverity where
  | ERROR
  | WARNING
  | INFO
deriving DecidableEq, Repr

/-- `ValidationError` dataclass: one validation finding. -/
structure ValidationError where
  field : String := ""
  message : String := ""
  severity : ValidationSeverity := .ERROR
  suggestions : List String := []
  stage : String := ""
deriving DecidableEq, Repr

/-- `ValidationResult` dataclass: aggregate validation outcome. -/
structure ValidationResult where
  is_valid : Bool := true
  errors : List ValidationError := []
  warning_count : Nat := 0
  error_count : Nat := 0
deriving DecidableEq, Repr

/-- `ValidationResult.add_error`: appends the error, bumps the severity
counter, and recomputes `is_valid` as `error_count == 0`. -/
def ValidationResult.add_error (r : ValidationResult) (e : ValidationError) :
    ValidationResult :=
  let r := { r with errors := r.errors ++ [e] }
  let r :=
    if e.severity = .ERROR then { r with error_count := r.error_count + 1 }
    else if e.severity = .WARNING then { r with warning_count := r.warning_count + 1 }
    else r
  { r with is_valid := r.error_count == 0 }

/-- A freshly constructed `ValidationResult()` (all dataclass defaults). -/
def ValidationResult.fresh : ValidationResult := {}

/-- The state reached from a fresh `ValidationResult` by a sequence of
`add_error` calls (the single mutation path). -/
def ValidationResult.applyErrors (es : List ValidationError) : ValidationResult :=
  es.foldl ValidationResult.add_error ValidationResult.fresh

/-! ## sanitize_filename (src/utils/path_utils.py) -/

/-- Characters replaced by `_`: the regex `[<>:"/\\|?*\x00-\x1f]`. -/
def isIllegalChar (c : Char) : Bool :=
  c == '<' || c == '>' || c == ':' || c == '"' || c == '/' || c == '\\' ||
  c == '|' || c == '?' || c == '*' || c.toNat ≤ 31

/-- The characters Python's default `str.strip()` removes that can still be
present after illegal-character replacement (all code points below 0x20 have
already been replaced by `_`): the space and the Unicode space separators. -/
def isPySpace (c : Char) : Bool :=
  c.toNat == 0x20 || c.toNat == 0x85 || c.toNat == 0xa0 || c.toNat == 0x1680 ||
  (0x2000 ≤ c.toNat && c.toNat ≤ 0x200a) || c.toNat == 0x2028 ||
  c.toNat == 0x2029 || c.toNat == 0x202f || c.toNat == 0x205f ||
  c.toNat == 0x3000

/-- Python `s.strip(chars)`: drop characters satisfying `p` from both ends. -/
def stripBoth (p : Char → Bool) (l : List Char) : List Char :=
  ((l.dropWhile p).reverse.dropWhile p).reverse

/-- `sanitize_filename(name, max_length=50)` from src/utils/path_utils.py. -/
def sanitize_filename (name : String) (max_length : Nat := 50) : String :=
  if name = "" then "unnamed_project"
  else
    let cleaned := name.data.map (fun c => if isIllegalChar c then '_' else c)
    let cleaned := stripBoth (fun c => c == '.' || c == ' ') cleaned
    let cleaned :=
      if cleaned.length > max_length then stripBoth isPySpace (cleaned.take max_length)
      else cleaned
    if cleaned.all (· == '_') then "unnamed_project" else String.mk cleaned

/-- The character-list pipeline of `sanitize_filename` before the final
placeholder check (replacement, strip of dots/spaces, truncation), at the
default `max_length = 50`; `sanitize_filename_eq_body` shows the function
factors through it definitionally. -/
def sanitizedBody (s : String) : List Char :=
  let cleaned := s.data.map fun c => if isIllegalChar c then '_' else c
  let cleaned := stripBoth (fun c => c == '.' || c == ' ') cleaned
  if cleaned.length > 50 then stripBoth isPySpace (cleaned.take 50) else cleaned

/-- Substring containment (for "the error message contains the offending
id"). -/
def ContainsStr (m sub : String) : Prop := ∃ a b, m = a ++ sub ++ b

/-! ## ProjectConfig and the TOML store (src/core/models.py, src/core/config.py) -/

/-- A value inside a persisted TOML document: a string, a timestamp
(abstracted to `Nat`, see the header comment), or a nested string table
(`custom_params`). -/
inductive TVal where
  | s (v : String)
  | n (v : Nat)
  | t (m : List (String × String))
deriving DecidableEq, Repr

/-- A persisted TOML document: the key/value pairs written by `tomli_w.dump`
and recovered verbatim by `tomllib.load`. -/
abbrev Doc := List (String × TVal)

/-- `ProjectConfig` dataclass (src/core/models.py).  Timestamps use the
abstract clock (`0` = unset, mirroring the `""` default). -/
structure ProjectConfig where
  name : String := ""
  description : String := ""
  simulink_path : String := ""
  matlab_code_path : String := ""
  a2l_path : String := ""
  target_path : String := ""
  iar_project_path : String := ""
  custom_params : List (String × String) := []
  created_at : Nat := 0
  modified_at : Nat := 0
  workflow_id : String := ""
  workflow_name : String := ""
deriving DecidableEq, Repr

/-- One key/value entry of `to_dict` for a string field: omitted when the
value is the empty string (`v != ""` in the Python dict comprehension). -/
def strEntry (k v : String) : Doc := if v = "" then [] else [(k, .s v)]

/-- One `to_dict` entry for a timestamp field: omitted when unset (`0`
models the empty string the Python default leaves in place). -/
def natEntry (k : String) (v : Nat) : Doc := if v = 0 then [] else [(k, .n v)]

/-- `ProjectConfig.to_dict`: `{k: v for k, v in self.__dict__.items() if v is
not None and v != ""}` in field declaration order.  A dict value (even the
empty `custom_params` dict) always differs from `""`, so it is always kept. -/
def ProjectConfig.to_dict (c : ProjectConfig) : Doc :=
  strEntry "name" c.name ++
  strEntry "description" c.description ++
  strEntry "simulink_path" c.simulink_path ++
  strEntry "matlab_code_path" c.matlab_code_path ++
  strEntry "a2l_path" c.a2l_path ++
  strEntry "target_path" c.target_path ++
  strEntry "iar_project_path" c.iar_project_path ++
  [("custom_params", .t c.custom_params)] ++
  natEntry "created_at" c.created_at ++
  natEntry "modified_at" c.modified_at ++
  strEntry "workflow_id" c.workflow_id ++
  strEntry "workflow_name" c.workflow_name

/-- Read a string-valued key from a document (missing key ⇒ dataclass
default `""`). -/
def docStr (d : Doc) (k : String) : String :=
  match d.find? (fun p => p.1 == k) with
  | some (_, .s v) => v
  | _ => ""

/-- Read a timestamp-valued key from a document (missing key ⇒ unset). -/
def docNat (d : Doc) (k : String) : Nat :=
  match d.find? (fun p => p.1 == k) with
  | some (_, .n v) => v
  | _ => 0

/-- Read the `custom_params` table from a document. -/
def docTable (d : Doc) (k : String) : List (String × String) :=
  match d.find? (fun p => p.1 == k) with
  | some (_, .t m) => m
  | _ => []

/-- `ProjectConfig.from_dict`: keeps only known field keys and falls back to
the dataclass defaults for absent ones. -/
def ProjectConfig.from_dict (d : Doc) : ProjectConfig where
  name := docStr d "name"
  description := docStr d "description"
  simulink_path := docStr d "simulink_path"
  matlab_code_path := docStr d "matlab_code_path"
  a2l_path := docStr d "a2l_path"
  target_path := docStr d "target_path"
  iar_project_path := docStr d "iar_project_path"
  custom_params := docTable d "custom_params"
  created_at := docNat d "created_at"
  modified_at := docNat d "modified_at"
  workflow_id := docStr d "workflow_id"
  workflow_name := docStr d "workflow_name"

/-- Python's `not value or not value.strip()`: the string is empty or
consists only of whitespace. -/
def isBlank (s : String) : Bool := s.data.all Char.isWhitespace

/-- The six required fields checked by `validate_required_fields`, paired
with their display labels, in source order. -/
def ProjectConfig.requiredFieldList (c : ProjectConfig) : List (String × String) :=
  [(c.name, "项目名称"),
   (c.simulink_path, "Simulink 工程路径"),
   (c.matlab_code_path, "MATLAB 代码路径"),
   (c.a2l_path, "A2L 文件路径"),
   (c.target_path, "目标文件路径"),
   (c.iar_project_path, "IAR 工程路径")]

/-- `ProjectConfig.validate_required_fields`: an error message per required
field that is empty or whitespace-only (`not value or not value.strip()`). -/
def ProjectConfig.validate_required_fields (c : ProjectConfig) : List String :=
  c.requiredFieldList.filterMap fun fv =>
    if isBlank fv.1 then some (fv.2 ++ " 不能为空") else none

/-- Configuration-layer exceptions (src/utils/errors.py): each carries a
message and actionable suggestions. -/
inductive Err where
  | validation (message : String) (suggestions : List String)
  | load (message : String) (suggestions : List String)
  | save (message : String) (suggestions : List String)
  | generic (message : String)
deriving DecidableEq, Repr

/-- The process state: the projects directory (file name ↦ parsed TOML
document) and the abstract wall clock. -/
structure Sys where
  store : List (String × Doc)
  clock : Nat
deriving DecidableEq, Repr

/-- Look a file up in the projects directory. -/
def storeGet (st : List (String × Doc)) (k : String) : Option Doc :=
  (st.find? (fun p => p.1 == k)).map (·.2)

/-- Write (create or overwrite) a file in the projects directory. -/
def storeSet (st : List (String × Doc)) (k : String) (d : Doc) :
    List (String × Doc) :=
  (k, d) :: st.filter (fun p => p.1 != k)

/-- The timestamp update of `save_config` (config.py lines 106–110):
`modified_at` is always refreshed to `now`, `created_at` only when unset. -/
def stampConfig (config : ProjectConfig) (now : Nat) : ProjectConfig :=
  { config with
      modified_at := now
      created_at := if config.created_at = 0 then now else config.created_at }

/-- `save_config(config, filename, overwrite)` (src/core/config.py lines
67–126).  Validates, then checks existence, then stamps the timestamps and
writes `to_dict`.  Failure paths leave the state untouched, matching the
Python code, which writes nothing before the `open(..., "wb")`. -/
def save_config (sys : Sys) (config : ProjectConfig) (filename : String)
    (overwrite : Bool) : Except Err Bool × Sys :=
  let errs := config.validate_required_fields
  if errs ≠ [] then
    (.error (.validation ("配置验证失败: " ++ String.intercalate ", " errs)
      ["检查所有必填字段是否已填写"]), sys)
  else if (storeGet sys.store filename).isSome && !overwrite then
    (.ok false, sys)
  else
    let now := sys.clock
    let config :=
      { config with
          modified_at := now
          created_at := if config.created_at = 0 then now else config.created_at }
    (.ok true,
     { store := storeSet sys.store filename config.to_dict, clock := sys.clock + 1 })

/-- `load_config(filename)` (src/core/config.py lines 144–203): missing
file, then parse (documents in the store are always parseable), then
`from_dict`, then required-field validation. -/
def load_config (sys : Sys) (filename : String) : Except Err ProjectConfig :=
  match storeGet sys.store filename with
  | none =>
      .error (.load ("配置文件不存在: " ++ filename)
        ["检查项目名称 '" ++ filename ++ "' 是否正确", "重新创建项目配置",
         "查看已保存的项目列表"])
  | some doc =>
      let config := ProjectConfig.from_dict doc
      if config.validate_required_fields ≠ [] then
        .error (.load ("配置信息不完整: " ++
            String.intercalate ", " config.validate_required_fields)
          ["重新创建项目配置", "手动编辑配置文件补充缺失字段", "检查配置文件完整性"])
      else
        .ok config

/-- `update_config(project_name, updated_config)` (src/core/config.py lines
263–309): re-validate, load the original solely for its `created_at`,
stamp `modified_at` with a fresh `now()`, then overwrite-save (which stamps
`modified_at` again with its own `now()`). -/
def update_config (sys : Sys) (project_name : String)
    (updated_config : ProjectConfig) : Except Err Bool × Sys :=
  let errs := updated_config.validate_required_fields
  if errs ≠ [] then
    (.error (.validation ("配置验证失败: " ++ String.intercalate ", " errs)
      ["检查所有必填字段是否已填写"]), sys)
  else
    match load_config sys project_name with
    | .error _ =>
        (.error (.load ("项目配置不存在: " ++ project_name)
          ["检查项目名称是否正确", "创建新项目配置"]), sys)
    | .ok original_config =>
        let updated_config :=
          { updated_config with
              created_at := original_config.created_at
              modified_at := sys.clock }
        save_config { sys with clock := sys.clock + 1 } updated_config
          project_name true

/-! ## Dependency-graph cycle detection (src/core/config.py lines 562–611)

`_check_circular_dependencies(stages)` receives the already-validated stage
dicts; each carries an `id` and a list-valued `dependencies`.  The Python
code builds `graph = {stage["id"]: stage["dependencies"] for stage in
stages}` (later duplicate ids overwrite earlier ones, key iteration keeps
first-occurrence order) and runs a recursive DFS with a shared `visited`
set and a path-local `rec_stack` set.

The recursion is embedded as `dfsRun`, structurally recursive on an explicit
fuel.  One fuel unit is consumed per recursive step; `checkFuel` is proven
sufficient (`dfsRun_total`), so the fuel is an artifact of the embedding and
never alters the computed Boolean. -/

/-- One stage as seen by `_check_circular_dependencies`. -/
structure CStage where
  id : String
  dependencies : List String
deriving DecidableEq, Repr

/-- The adjacency mapping `{stage["id"]: stage["dependencies"] ...}` as an
association list (lookups take the last binding, like the dict). -/
def graphOf (stages : List CStage) : List (String × List String) :=
  stages.map fun s => (s.id, s.dependencies)

/-- `graph.get(node, [])`: the last binding for `node`, or `[]`. -/
def depsOf (g : List (String × List String)) (node : String) : List String :=
  ((g.reverse.find? (fun p => p.1 == node)).map (·.2)).getD []

/-- Python dict key order: first occurrence wins, duplicates dropped. -/
def pyKeys : List String → List String
  | [] => []
  | x :: xs => x :: (pyKeys xs).filter (fun y => y ≠ x)

/-- The recursive DFS of `_check_circular_dependencies`.  `pending` is the
list of nodes the current loop still has to call `dfs` on (the dependency
list of the node on top of `recStack`, or the top-level key list when
`recStack = []`).  `dfs(node)` returns True when `node` is on `rec_stack`,
skips nodes already `visited`, and otherwise marks `node` visited, pushes it
on the stack, recurses into its dependencies, and pops it afterwards (the
pop is implicit here: the continuation reuses the caller's `recStack`). -/
def dfsRun (g : List (String × List String)) :
    Nat → List String → List String → List String → Option (Bool × List String)
  | 0, _, _, _ => none
  | _ + 1, [], visited, _ => some (false, visited)
  | fuel + 1, node :: rest, visited, recStack =>
    if node ∈ recStack then some (true, visited)
    else if node ∈ visited then dfsRun g fuel rest visited recStack
    else
      match dfsRun g fuel (depsOf g node) (node :: visited) (node :: recStack) with
      | none => none
      | some (true, visited') => some (true, visited')
      | some (false, visited') => dfsRun g fuel rest visited' recStack

/-- The node universe: every declared stage id and every mentioned
dependency id. -/
def nodeUniverse (stages : List CStage) : Finset String :=
  (stages.map (·.id) ++ stages.flatMap (·.dependencies)).toFinset

/-- Fuel weight of the still-unvisited part of the universe. -/
def unvisitedWeight (g : List (String × List String)) (U : Finset String)
    (visited : List String) : Nat :=
  (U.filter (fun n => n ∉ visited)).sum fun n => 1 + (depsOf g n).length

/-- A fuel amount sufficient for the whole traversal (proven in
`dfsRun_total`). -/
def checkFuel (stages : List CStage) : Nat :=
  (pyKeys (stages.map (·.id))).length + 1 +
    unvisitedWeight (graphOf stages) (nodeUniverse stages) []

/-- `_check_circular_dependencies(stages)`: True iff the DFS finds a node
that is already on the recursion stack.  The `none` fallback is dead code
(`dfsRun_total`). -/
def check_circular_dependencies (stages : List CStage) : Bool :=
  let graph := graphOf stages
  match dfsRun graph (checkFuel stages) (pyKeys (stages.map (·.id))) [] [] with
  | some (b, _) => b
  | none => false

/-- The edge relation of the dependency graph: `E g a b` iff `b` appears in
the dependency list the dict associates with `a`. -/
def GEdge (g : List (String × List String)) (a b : String) : Prop :=
  b ∈ depsOf g a

/-- The dependency graph of `stages` contains a (directed, nonempty) cycle. -/
def HasCycle (stages : List CStage) : Prop :=
  ∃ n, Relation.TransGen (GEdge (graphOf stages)) n n

/-! ## Workflow model and the custom-workflow loader
(src/core/models.py, src/core/config.py lines 442–559) -/

/-- `StageConfig` dataclass: one canonical pipeline stage. -/
structure StageConfig where
  name : String := ""
  enabled : Bool := true
  timeout : Int := 300
deriving DecidableEq, Repr

/-- `WorkflowConfig` dataclass: a named ordered collection of stages. -/
structure WorkflowConfig where
  id : String := ""
  name : String := ""
  description : String := ""
  estimated_time : Int := 0
  stages : List StageConfig := []
deriving DecidableEq, Repr

/-- One stage dict of a parsed custom-workflow JSON document.  `none` models
an absent key; `dependencies = some none` models a present key whose value
is not a list (the `isinstance(..., list)` check). -/
structure StageDoc where
  id : Option String := none
  sname : Option String := none
  enabled : Option Bool := none
  dependencies : Option (Option (List String)) := none
  timeout : Option Int := none
deriving DecidableEq, Repr

/-- The value found under the top-level `stages` key: a list of stage dicts,
or some other JSON value (`none` inside), failing the `isinstance` check. -/
abbrev StagesVal := Option (List StageDoc)

/-- A parsed custom-workflow JSON document (top-level dict). -/
structure WorkflowDoc where
  wid : Option String := none
  wname : Option String := none
  description : Option String := none
  stages : Option StagesVal := none
  estimated_time : Option Int := none
deriving DecidableEq, Repr

/-- What `load_custom_workflow` finds at `file_path`: no file, a file whose
bytes are not valid UTF-8, a file that does not parse as JSON (with the
decoder's detail string), or a parsed document. -/
inductive FileInput where
  | missing
  | badEncoding
  | badJson (detail : String)
  | parsed (doc : WorkflowDoc)
deriving DecidableEq, Repr

/-- `field in data` for the three top-level required keys. -/
def topHasKey (d : WorkflowDoc) : String → Bool
  | "name" => d.wname.isSome
  | "description" => d.description.isSome
  | "stages" => d.stages.isSome
  | _ => false

/-- `field in stage` for the four per-stage required keys. -/
def stageHasKey (s : StageDoc) : String → Bool
  | "id" => s.id.isSome
  | "name" => s.sname.isSome
  | "enabled" => s.enabled.isSome
  | "dependencies" => s.dependencies.isSome
  | _ => false

/-- `stage.get('id', idx)` as rendered into error messages: the stage id
when present, the enumeration index otherwise. -/
def stageIdOrIdx (s : StageDoc) (idx : Nat) : String :=
  match s.id with
  | some i => i
  | none => toString idx

/-- The per-stage validation loop (config.py lines 500–511): for each stage
in order, first the missing-required-keys check, then the
`dependencies`-is-a-list check; the first failure produces the error. -/
def checkStageFields (idx : Nat) : List StageDoc → Option String
  | [] => none
  | s :: rest =>
    let missing := ["id", "name", "enabled", "dependencies"].filter
      fun f => !stageHasKey s f
    if missing ≠ [] then
      some ("阶段 " ++ toString idx ++ " 缺少必需字段: " ++
        String.intercalate ", " missing)
    else
      match s.dependencies with
      | some none =>
          some ("阶段 " ++ stageIdOrIdx s idx ++ " 的 'dependencies' 字段必须是一个列表")
      | _ => checkStageFields (idx + 1) rest

/-- The dependency list of a stage that has passed `checkStageFields`. -/
def stageDeps (s : StageDoc) : List String := ((s.dependencies).getD none).getD []

/-- The view of the validated stage dicts handed to
`_check_circular_dependencies`. -/
def toCStages (l : List StageDoc) : List CStage :=
  l.map fun s => ⟨s.id.getD "", stageDeps s⟩

/-- The referential-integrity loop (config.py lines 522–527): the first
`(stage, dep_id)` in iteration order whose `dep_id` is not a declared stage
id, rendered as `(stage.get('id', idx), dep_id)`. -/
def firstUndeclaredDep (stage_ids : List String) (idx : Nat) :
    List StageDoc → Option (String × String)
  | [] => none
  | s :: rest =>
    match (stageDeps s).find? (fun dep => !stage_ids.contains dep) with
    | some dep => some (stageIdOrIdx s idx, dep)
    | none => firstUndeclaredDep stage_ids (idx + 1) rest

/-- The error message of the referential-integrity check. -/
def undeclaredDepMsg (sid dep : String) : String :=
  "阶段 " ++ sid ++ " 的依赖 '" ++ dep ++ "' 不存在"

/-- The conversion applied to each validated stage dict (config.py lines
544–548): `name` comes from the input `id`, `enabled` is copied, `timeout`
defaults to 300. -/
def convertStage (s : StageDoc) : StageConfig where
  name := s.id.getD ""
  enabled := (s.enabled).getD false
  timeout := (s.timeout).getD 300

/-- `load_custom_workflow(file_path)` (src/core/config.py lines 442–559).
All outcomes are returned as `(Optional[WorkflowConfig],
Optional[error_message])`; nothing is raised. -/
def load_custom_workflow (file_path : String) (input : FileInput) :
    Option WorkflowConfig × Option String :=
  match input with
  | .missing => (none, some ("文件不存在: " ++ file_path))
  | .badJson detail => (none, some ("JSON格式错误: " ++ detail))
  | .badEncoding => (none, some "文件编码错误，请使用UTF-8编码保存")
  | .parsed data =>
    let missing_fields := ["name", "description", "stages"].filter
      fun f => !topHasKey data f
    if missing_fields ≠ [] then
      (none, some ("缺少必需字段: " ++ String.intercalate ", " missing_fields))
    else
      match data.stages with
      | none =>
          -- dead branch: `missing_fields = []` forces `data.stages.isSome`;
          -- were it reachable, the subscript's KeyError would hit the
          -- generic `except Exception` handler of the Python code
          (none, some "加载自定义工作流时发生未知错误: 'stages'")
      | some none => (none, some "'stages' 字段必须是一个列表")
      | some (some stages) =>
        if stages = [] then (none, some "stages 列表不能为空")
        else
          match checkStageFields 0 stages with
          | some msg => (none, some msg)
          | none =>
            let stage_ids := stages.map fun s => s.id.getD ""
            if check_circular_dependencies (toCStages stages) then
              (none, some "检测到循环依赖，请检查stages的dependencies配置")
            else
              match firstUndeclaredDep stage_ids 0 stages with
              | some sd => (none, some (undeclaredDepMsg sd.1 sd.2))
              | none =>
                if stages.filter (fun s => (s.enabled).getD false) = [] then
                  (none, some "至少需要启用一个阶段")
                else
                  (some
                    { id := data.wid.getD "custom"
                      name := data.wname.getD ""
                      description := data.description.getD ""
                      estimated_time := data.estimated_time.getD 0
                      stages := stages.map convertStage },
                   none)

/-! ## Lemmas: ValidationResult (claim C9) -/

theorem add_error_is_valid_eq (r : ValidationResult) (e : ValidationError) :
    (r.add_error e).is_valid = ((r.add_error e).error_count == 0) := by
  unfold ValidationResult.add_error
  split_ifs <;> rfl

theorem add_error_errors_eq (r : ValidationResult) (e : ValidationError) :
    (r.add_error e).errors = r.errors ++ [e] := by
  unfold ValidationResult.add_error
  split_ifs <;> rfl

theorem add_error_error_count_eq (r : ValidationResult) (e : ValidationError) :
    (r.add_error e).error_count
      = r.error_count + (if e.severity = .ERROR then 1 else 0) := by
  unfold ValidationResult.add_error
  split_ifs <;> simp

theorem add_error_warning_count_eq (r : ValidationResult) (e : ValidationError) :
    (r.add_error e).warning_count
      = r.warning_count + (if e.severity = .WARNING then 1 else 0) := by
  unfold ValidationResult.add_error
  split_ifs with h1 h2 <;> simp_all

theorem foldl_add_error_is_valid (es : List ValidationError) (r : ValidationResult)
    (h : r.is_valid = (r.error_count == 0)) :
    (es.foldl ValidationResult.add_error r).is_valid
      = ((es.foldl ValidationResult.add_error r).error_count == 0) := by
  induction es generalizing r with
  | nil => exact h
  | cons e es ih => exact ih _ (add_error_is_valid_eq r e)

theorem applyErrors_is_valid (es : List ValidationError) :
    (ValidationResult.applyErrors es).is_valid
      = ((ValidationResult.applyErrors es).error_count == 0) :=
  foldl_add_error_is_valid es ValidationResult.fresh rfl

theorem add_error_is_valid_formula (r : ValidationResult) (e : ValidationError)
    (h : r.is_valid = (r.error_count == 0)) :
    (r.add_error e).is_valid
      = (if e.severity = .ERROR then false else r.is_valid) := by
  rw [add_error_is_valid_eq, add_error_error_count_eq]
  split_ifs with h1 <;> simp [h]

/-- C9: starting from a fresh `ValidationResult` and applying any sequence of
`add_error` calls (the single mutation path), `is_valid` holds iff
`error_count = 0`; one further `add_error` appends the error, increments
`error_count` exactly when the severity is ERROR (making `is_valid` false),
increments `warning_count` exactly when it is WARNING, increments neither
count for INFO, and a WARNING or INFO append leaves `is_valid` unchanged —
in particular it never flips it to false. -/
theorem c9_validation_result_incremental (es : List ValidationError)
    (e : ValidationError) :
    ((ValidationResult.applyErrors es).is_valid
        = ((ValidationResult.applyErrors es).error_count == 0))
    ∧ (((ValidationResult.applyErrors es).add_error e).errors
        = (ValidationResult.applyErrors es).errors ++ [e])
    ∧ (((ValidationResult.applyErrors es).add_error e).error_count
        = (ValidationResult.applyErrors es).error_count
            + (if e.severity = .ERROR then 1 else 0))
    ∧ (((ValidationResult.applyErrors es).add_error e).warning_count
        = (ValidationResult.applyErrors es).warning_count
            + (if e.severity = .WARNING then 1 else 0))
    ∧ (((ValidationResult.applyErrors es).add_error e).is_valid
        = (if e.severity = .ERROR then false
           else (ValidationResult.applyErrors es).is_valid)) :=
  ⟨applyErrors_is_valid es,
   add_error_errors_eq _ e,
   add_error_error_count_eq _ e,
   add_error_warning_count_eq _ e,
   add_error_is_valid_formula _ e (applyErrors_is_valid es)⟩

/-! ## Lemmas: sanitize_filename (claim C7) -/

theorem stripBoth_sublist (p : Char → Bool) (l : List Char) :
    (stripBoth p l).Sublist l := by
  unfold stripBoth
  have h1 : ((l.dropWhile p).reverse.dropWhile p).Sublist (l.dropWhile p).reverse :=
    List.dropWhile_sublist _
  have h2 := h1.reverse
  rw [List.reverse_reverse] at h2
  exact h2.trans (List.dropWhile_sublist _)

theorem sanitize_filename_eq_body (s : String) :
    sanitize_filename s =
      if s = "" then "unnamed_project"
      else if (sanitizedBody s).all (· == '_') then "unnamed_project"
      else String.mk (sanitizedBody s) := rfl

theorem sanitizedBody_length_le (s : String) : (sanitizedBody s).length ≤ 50 := by
  unfold sanitizedBody
  dsimp only
  split
  · calc (stripBoth isPySpace _).length
        ≤ ((stripBoth (fun c => c == '.' || c == ' ')
            (s.data.map fun c => if isIllegalChar c then '_' else c)).take 50).length :=
          (stripBoth_sublist _ _).length_le
      _ ≤ 50 := by simp
  · omega

theorem sanitizedBody_sublist_map (s : String) :
    (sanitizedBody s).Sublist
      (s.data.map fun c => if isIllegalChar c then '_' else c) := by
  unfold sanitizedBody
  dsimp only
  split
  · exact ((stripBoth_sublist _ _).trans (List.take_sublist _ _)).trans
      (stripBoth_sublist _ _)
  · exact stripBoth_sublist _ _

theorem mem_map_not_illegal (s : String) (c : Char)
    (hc : c ∈ s.data.map fun c => if isIllegalChar c then '_' else c) :
    isIllegalChar c = false := by
  obtain ⟨a, _, ha⟩ := List.mem_map.mp hc
  by_cases h : isIllegalChar a
  · simp [h] at ha; subst ha; decide
  · simp [h] at ha; subst ha; simpa using h

theorem unnamed_project_no_illegal :
    ∀ c ∈ ("unnamed_project" : String).data, isIllegalChar c = false := by decide

theorem sanitize_filename_length_le (s : String) :
    (sanitize_filename s).length ≤ 50 := by
  rw [sanitize_filename_eq_body]
  split_ifs
  · decide
  · decide
  · show (sanitizedBody s).length ≤ 50
    exact sanitizedBody_length_le s

theorem sanitize_filename_no_illegal (s : String) (c : Char)
    (hc : c ∈ (sanitize_filename s).data) : isIllegalChar c = false := by
  rw [sanitize_filename_eq_body] at hc
  split_ifs at hc
  · exact unnamed_project_no_illegal c hc
  · exact unnamed_project_no_illegal c hc
  · exact mem_map_not_illegal s c ((sanitizedBody_sublist_map s).mem hc)

theorem sanitize_filename_ne_empty (s : String) : sanitize_filename s ≠ "" := by
  rw [sanitize_filename_eq_body]
  split_ifs with h1 h2
  · decide
  · decide
  · intro hcontra
    have hdata : sanitizedBody s = [] := congrArg String.data hcontra
    rw [hdata] at h2
    simp at h2

/-- C7 counterexample: the claim says *every control character* is replaced
with an underscore, but the source regex only covers `\x00-\x1f`; the DEL
character U+007F is a control character and passes through unchanged, so
`sanitize_filename "a\x7Fb"` is not `"a_b"`. -/
theorem c7_counterexample_del_not_replaced :
    sanitize_filename "a\x7Fb" ≠ "a_b" ∧
    sanitize_filename (String.mk ['a', '\x7F', 'b']) = String.mk ['a', '\x7F', 'b'] ∧
    sanitize_filename (String.mk ['a', '\x7F', 'b']) ≠ "a_b" := by
  refine ⟨?_, ?_, ?_⟩ <;> decide

/-- C7 (amended): `sanitize_filename` replaces every character among
`< > : " / \ | ? *` and every control character in the range U+0000–U+001F
with `_` (control characters above that range, such as DEL, are kept),
trims leading/trailing spaces and dots, truncates the result to at most 50
characters, and yields the placeholder `"unnamed_project"` for empty or
all-underscore results; in particular the claim's three concrete examples
hold, and outputs never contain a replaced-set character, never exceed 50
characters, and are never empty. -/
theorem c7_sanitize_filename_behaviour :
    sanitize_filename "test<file>name" = "test_file_name" ∧
    sanitize_filename "" = "unnamed_project" ∧
    sanitize_filename "   " = "unnamed_project" ∧
    sanitize_filename (String.mk (List.replicate 100 'a'))
      = String.mk (List.replicate 50 'a') ∧
    (∀ s : String, (sanitize_filename s).length ≤ 50 ∧
      ((sanitize_filename s).data.all fun c => !(isIllegalChar c)) = true ∧
      sanitize_filename s ≠ "") := by
  refine ⟨by decide, by decide, by decide, by decide, fun s => ⟨?_, ?_, ?_⟩⟩
  · exact sanitize_filename_length_le s
  · rw [List.all_eq_true]
    intro c hc
    simpa using sanitize_filename_no_illegal s c hc
  · exact sanitize_filename_ne_empty s

/-! ## Lemmas: the TOML document round trip (claims C1, C4, C5, C8) -/

theorem find?_strEntry_of_ne (k key v : String) (h : (k == key) = false) :
    (strEntry k v).find? (fun p => p.1 == key) = none := by
  unfold strEntry
  split <;> simp [List.find?, h]

theorem find?_natEntry_of_ne (k key : String) (v : Nat) (h : (k == key) = false) :
    (natEntry k v).find? (fun p => p.1 == key) = none := by
  unfold natEntry
  split <;> simp [List.find?, h]

theorem find?_strEntry_self (k v : String) :
    (strEntry k v).find? (fun p => p.1 == k)
      = if v = "" then none else some (k, .s v) := by
  unfold strEntry
  split <;> simp [List.find?]

theorem find?_natEntry_self (k : String) (v : Nat) :
    (natEntry k v).find? (fun p => p.1 == k)
      = if v = 0 then none else some (k, .n v) := by
  unfold natEntry
  split <;> simp [List.find?]

theorem docStr_to_dict_name (c : ProjectConfig) :
    docStr c.to_dict "name" = c.name := by
  by_cases h : c.name = "" <;>
    simp [ProjectConfig.to_dict, docStr, find?_strEntry_of_ne, find?_natEntry_of_ne,
      find?_strEntry_self, find?_natEntry_self, List.find?, h]

theorem docStr_to_dict_description (c : ProjectConfig) :
    docStr c.to_dict "description" = c.description := by
  by_cases h : c.description = "" <;>
    simp [ProjectConfig.to_dict, docStr, find?_strEntry_of_ne, find?_natEntry_of_ne,
      find?_strEntry_self, find?_natEntry_self, List.find?, h]

theorem docStr_to_dict_simulink (c : ProjectConfig) :
    docStr c.to_dict "simulink_path" = c.simulink_path := by
  by_cases h : c.simulink_path = "" <;>
    simp [ProjectConfig.to_dict, docStr, find?_strEntry_of_ne, find?_natEntry_of_ne,
      find?_strEntry_self, find?_natEntry_self, List.find?, h]

theorem docStr_to_dict_matlab (c : ProjectConfig) :
    docStr c.to_dict "matlab_code_path" = c.matlab_code_path := by
  by_cases h : c.matlab_code_path = "" <;>
    simp [ProjectConfig.to_dict, docStr, find?_strEntry_of_ne, find?_natEntry_of_ne,
      find?_strEntry_self, find?_natEntry_self, List.find?, h]

theorem docStr_to_dict_a2l (c : ProjectConfig) :
    docStr c.to_dict "a2l_path" = c.a2l_path := by
  by_cases h : c.a2l_path = "" <;>
    simp [ProjectConfig.to_dict, docStr, find?_strEntry_of_ne, find?_natEntry_of_ne,
      find?_strEntry_self, find?_natEntry_self, List.find?, h]

theorem docStr_to_dict_target (c : ProjectConfig) :
    docStr c.to_dict "target_path" = c.target_path := by
  by_cases h : c.target_path = "" <;>
    simp [ProjectConfig.to_dict, docStr, find?_strEntry_of_ne, find?_natEntry_of_ne,
      find?_strEntry_self, find?_natEntry_self, List.find?, h]

theorem docStr_to_dict_iar (c : ProjectConfig) :
    docStr c.to_dict "iar_project_path" = c.iar_project_path := by
  by_cases h : c.iar_project_path = "" <;>
    simp [ProjectConfig.to_dict, docStr, find?_strEntry_of_ne, find?_natEntry_of_ne,
      find?_strEntry_self, find?_natEntry_self, List.find?, h]

theorem docStr_to_dict_workflow_id (c : ProjectConfig) :
    docStr c.to_dict "workflow_id" = c.workflow_id := by
  by_cases h : c.workflow_id = "" <;>
    simp [ProjectConfig.to_dict, docStr, find?_strEntry_of_ne, find?_natEntry_of_ne,
      find?_strEntry_self, find?_natEntry_self, List.find?, h]

theorem docStr_to_dict_workflow_name (c : ProjectConfig) :
    docStr c.to_dict "workflow_name" = c.workflow_name := by
  by_cases h : c.workflow_name = "" <;>
    simp [ProjectConfig.to_dict, docStr, find?_strEntry_of_ne, find?_natEntry_of_ne,
      find?_strEntry_self, find?_natEntry_self, List.find?, h]

theorem docNat_to_dict_created (c : ProjectConfig) :
    docNat c.to_dict "created_at" = c.created_at := by
  by_cases h : c.created_at = 0 <;>
    simp [ProjectConfig.to_dict, docNat, find?_strEntry_of_ne, find?_natEntry_of_ne,
      find?_strEntry_self, find?_natEntry_self, List.find?, h]

theorem docNat_to_dict_modified (c : ProjectConfig) :
    docNat c.to_dict "modified_at" = c.modified_at := by
  by_cases h : c.modified_at = 0 <;>
    simp [ProjectConfig.to_dict, docNat, find?_strEntry_of_ne, find?_natEntry_of_ne,
      find?_strEntry_self, find?_natEntry_self, List.find?, h]

theorem docTable_to_dict_custom (c : ProjectConfig) :
    docTable c.to_dict "custom_params" = c.custom_params := by
  simp [ProjectConfig.to_dict, docTable, find?_strEntry_of_ne, find?_natEntry_of_ne,
    find?_strEntry_self, find?_natEntry_self, List.find?]

/-- The store round trip is lossless: parsing back a saved document
reconstructs the exact `ProjectConfig` (omitted keys fall back to the very
defaults whose values made them omitted). -/
theorem from_dict_to_dict (c : ProjectConfig) :
    ProjectConfig.from_dict c.to_dict = c := by
  unfold ProjectConfig.from_dict
  rw [docStr_to_dict_name, docStr_to_dict_description, docStr_to_dict_simulink,
    docStr_to_dict_matlab, docStr_to_dict_a2l, docStr_to_dict_target,
    docStr_to_dict_iar, docTable_to_dict_custom, docNat_to_dict_created,
    docNat_to_dict_modified, docStr_to_dict_workflow_id, docStr_to_dict_workflow_name]

theorem storeGet_storeSet_self (st : List (String × Doc)) (k : String) (d : Doc) :
    storeGet (storeSet st k d) k = some d := by
  simp [storeGet, storeSet, List.find?]

theorem validate_stampConfig (c : ProjectConfig) (now : Nat) :
    (stampConfig c now).validate_required_fields = c.validate_required_fields := rfl

theorem validate_set_timestamps (c : ProjectConfig) (x y : Nat) :
    ({ c with created_at := x, modified_at := y } :
      ProjectConfig).validate_required_fields = c.validate_required_fields := rfl

/-! ## Lemmas: save_config / load_config / update_config branches -/

theorem save_config_invalid (sys : Sys) (config : ProjectConfig)
    (filename : String) (overwrite : Bool)
    (hv : config.validate_required_fields ≠ []) :
    save_config sys config filename overwrite =
      (.error (.validation
        ("配置验证失败: " ++ String.intercalate ", " config.validate_required_fields)
        ["检查所有必填字段是否已填写"]), sys) := by
  unfold save_config
  dsimp only
  rw [if_pos hv]

theorem save_config_skip (sys : Sys) (config : ProjectConfig)
    (filename : String) (overwrite : Bool)
    (hv : config.validate_required_fields = [])
    (ho : ((storeGet sys.store filename).isSome && !overwrite) = true) :
    save_config sys config filename overwrite = (.ok false, sys) := by
  unfold save_config
  dsimp only
  rw [if_neg (by simp [hv]), if_pos ho]

theorem save_config_writes (sys : Sys) (config : ProjectConfig)
    (filename : String) (overwrite : Bool)
    (hv : config.validate_required_fields = [])
    (ho : ((storeGet sys.store filename).isSome && !overwrite) = false) :
    save_config sys config filename overwrite =
      (.ok true,
       { store := storeSet sys.store filename (stampConfig config sys.clock).to_dict,
         clock := sys.clock + 1 }) := by
  unfold save_config
  dsimp only
  rw [if_neg (by simp [hv]), if_neg (by simp [ho])]
  rfl

theorem save_config_ok_true_inv (sys : Sys) (config : ProjectConfig)
    (filename : String) (overwrite : Bool) (sys' : Sys)
    (h : save_config sys config filename overwrite = (.ok true, sys')) :
    config.validate_required_fields = [] ∧
    sys' = { store := storeSet sys.store filename (stampConfig config sys.clock).to_dict,
             clock := sys.clock + 1 } := by
  by_cases hv : config.validate_required_fields = []
  · by_cases ho : ((storeGet sys.store filename).isSome && !overwrite) = true
    · rw [save_config_skip sys config filename overwrite hv ho] at h
      simp at h
    · rw [save_config_writes sys config filename overwrite hv
        (by simpa using ho)] at h
      simp only [Prod.mk.injEq, Except.ok.injEq] at h
      exact ⟨hv, h.2.symm⟩
  · rw [save_config_invalid sys config filename overwrite hv] at h
    simp at h

theorem load_config_missing (sys : Sys) (filename : String)
    (h : storeGet sys.store filename = none) :
    load_config sys filename =
      .error (.load ("配置文件不存在: " ++ filename)
        ["检查项目名称 '" ++ filename ++ "' 是否正确", "重新创建项目配置",
         "查看已保存的项目列表"]) := by
  unfold load_config
  rw [h]

theorem load_config_some_valid (sys : Sys) (filename : String) (doc : Doc)
    (hdoc : storeGet sys.store filename = some doc)
    (hv : (ProjectConfig.from_dict doc).validate_required_fields = []) :
    load_config sys filename = .ok (ProjectConfig.from_dict doc) := by
  unfold load_config
  rw [hdoc]
  dsimp only
  rw [if_neg (by simp [hv])]

theorem update_config_invalid (sys : Sys) (name : String) (newCfg : ProjectConfig)
    (hv : newCfg.validate_required_fields ≠ []) :
    update_config sys name newCfg =
      (.error (.validation
        ("配置验证失败: " ++ String.intercalate ", " newCfg.validate_required_fields)
        ["检查所有必填字段是否已填写"]), sys) := by
  unfold update_config
  dsimp only
  rw [if_pos hv]

theorem update_config_missing (sys : Sys) (name : String) (newCfg : ProjectConfig)
    (hv : newCfg.validate_required_fields = [])
    (h : storeGet sys.store name = none) :
    update_config sys name newCfg =
      (.error (.load ("项目配置不存在: " ++ name)
        ["检查项目名称是否正确", "创建新项目配置"]), sys) := by
  unfold update_config
  dsimp only
  rw [if_neg (by simp [hv]), load_config_missing sys name h]

theorem update_config_success (sys : Sys) (name : String)
    (newCfg : ProjectConfig) (doc : Doc)
    (hv : newCfg.validate_required_fields = [])
    (hdoc : storeGet sys.store name = some doc)
    (hvdoc : (ProjectConfig.from_dict doc).validate_required_fields = []) :
    update_config sys name newCfg =
      (.ok true,
       { store := storeSet sys.store name
           (stampConfig
             { newCfg with
                 created_at := (ProjectConfig.from_dict doc).created_at
                 modified_at := sys.clock } (sys.clock + 1)).to_dict,
         clock := sys.clock + 2 }) := by
  unfold update_config
  dsimp only
  rw [if_neg (by simp [hv]), load_config_some_valid sys name doc hdoc hvdoc]
  dsimp only
  rw [save_config_writes _ _ _ _ (by rw [validate_set_timestamps]; exact hv)
    (by simp)]

/-! ## Claim theorems C1, C4, C5, C8 -/

/-- C1: for every `ProjectConfig` whose name and five required path fields
are non-empty after trimming, a `save_config(config, n, overwrite)` call
returning `True` followed by `load_config(n)` yields a `ProjectConfig`
whose five path values equal the saved config's and whose name is
non-empty. -/
theorem c1_save_load_roundtrip (sys : Sys) (config : ProjectConfig)
    (n : String) (overwrite : Bool) (sys' : Sys)
    (hname : isBlank config.name = false)
    (hsim : isBlank config.simulink_path = false)
    (hmat : isBlank config.matlab_code_path = false)
    (ha2l : isBlank config.a2l_path = false)
    (htar : isBlank config.target_path = false)
    (hiar : isBlank config.iar_project_path = false)
    (hsave : save_config sys config n overwrite = (.ok true, sys')) :
    ∃ c', load_config sys' n = .ok c' ∧
      c'.simulink_path = config.simulink_path ∧
      c'.matlab_code_path = config.matlab_code_path ∧
      c'.a2l_path = config.a2l_path ∧
      c'.target_path = config.target_path ∧
      c'.iar_project_path = config.iar_project_path ∧
      c'.name ≠ "" := by
  obtain ⟨hv, rfl⟩ := save_config_ok_true_inv sys config n overwrite sys' hsave
  refine ⟨stampConfig config sys.clock, ?_, rfl, rfl, rfl, rfl, rfl, ?_⟩
  · have hget : storeGet (storeSet sys.store n (stampConfig config sys.clock).to_dict) n
        = some (stampConfig config sys.clock).to_dict := storeGet_storeSet_self _ _ _
    have hvd : (ProjectConfig.from_dict (stampConfig config sys.clock).to_dict).validate_required_fields = [] := by
      rw [from_dict_to_dict, validate_stampConfig]
      exact hv
    have hload := load_config_some_valid
      { store := storeSet sys.store n (stampConfig config sys.clock).to_dict,
        clock := sys.clock + 1 } n _ hget hvd
    rw [from_dict_to_dict] at hload
    exact hload
  · intro hc
    have hn : config.name = "" := hc
    rw [hn] at hname
    exact absurd hname (by decide)

/-- C1 witness: a concrete save/load round trip. -/
theorem c1_witness :
    ∃ c', load_config (save_config { store := [], clock := 1 }
        { name := "proj1", simulink_path := "p1", matlab_code_path := "p2",
          a2l_path := "p3", target_path := "p4", iar_project_path := "p5" }
        "proj1" false).2 "proj1" = .ok c' ∧
      c'.simulink_path = "p1" ∧
      c'.matlab_code_path = "p2" ∧
      c'.a2l_path = "p3" ∧
      c'.target_path = "p4" ∧
      c'.iar_project_path = "p5" ∧
      c'.name ≠ "" :=
  c1_save_load_roundtrip { store := [], clock := 1 }
    { name := "proj1", simulink_path := "p1", matlab_code_path := "p2",
      a2l_path := "p3", target_path := "p4", iar_project_path := "p5" }
    "proj1" false _
    (by decide) (by decide) (by decide) (by decide) (by decide) (by decide)
    rfl

/-- C4: `save_config` with `overwrite=False` against an existing document
returns `False` and leaves the state (hence the existing document)
untouched; and a config failing required-field validation raises
`ConfigValidationError` with the state untouched, for any `overwrite` —
the validation check runs before anything is written. -/
theorem c4_save_overwrite_and_validation (sys : Sys) (config : ProjectConfig)
    (filename : String) :
    (config.validate_required_fields = [] →
      (storeGet sys.store filename).isSome = true →
        save_config sys config filename false = (.ok false, sys))
    ∧ (config.validate_required_fields ≠ [] → ∀ overwrite,
        save_config sys config filename overwrite
          = (.error (.validation
              ("配置验证失败: " ++ String.intercalate ", " config.validate_required_fields)
              ["检查所有必填字段是否已填写"]), sys)) := by
  constructor
  · intro hv he
    exact save_config_skip sys config filename false hv (by simp [he])
  · intro hv overwrite
    exact save_config_invalid sys config filename overwrite hv

/-- C4 witness: a concrete blocked overwrite and a concrete validation
failure. -/
theorem c4_witness :
    (save_config { store := [("proj1", [("name", TVal.s "x")])], clock := 5 }
      { name := "proj1", simulink_path := "a", matlab_code_path := "b",
        a2l_path := "c", target_path := "d", iar_project_path := "e" }
      "proj1" false
      = (.ok false, { store := [("proj1", [("name", TVal.s "x")])], clock := 5 }))
    ∧ (save_config { store := [], clock := 0 } { name := "only" } "x" true
      = (.error (.validation
          ("配置验证失败: " ++ String.intercalate ", "
            ({ name := "only" } : ProjectConfig).validate_required_fields)
          ["检查所有必填字段是否已填写"]), { store := [], clock := 0 })) :=
  ⟨(c4_save_overwrite_and_validation _ _ _).1 (by decide) (by decide),
   (c4_save_overwrite_and_validation _ _ _).2 (by decide) true⟩

/-- C5: `update_config` re-validates the new config and raises
`ConfigValidationError` on failure; raises `ConfigLoadError` when no record
exists; and otherwise overwrite-saves, copying the original record's
`created_at` forward and stamping a `modified_at` strictly later than the
original record's whenever the original timestamp predates the current
clock. -/
theorem c5_update_config_semantics (sys : Sys) (name : String)
    (newCfg : ProjectConfig) :
    (newCfg.validate_required_fields ≠ [] →
      update_config sys name newCfg
        = (.error (.validation
            ("配置验证失败: " ++ String.intercalate ", " newCfg.validate_required_fields)
            ["检查所有必填字段是否已填写"]), sys))
    ∧ (newCfg.validate_required_fields = [] → storeGet sys.store name = none →
      update_config sys name newCfg
        = (.error (.load ("项目配置不存在: " ++ name)
            ["检查项目名称是否正确", "创建新项目配置"]), sys))
    ∧ (∀ doc : Doc, newCfg.validate_required_fields = [] →
        storeGet sys.store name = some doc →
        (ProjectConfig.from_dict doc).validate_required_fields = [] →
        (ProjectConfig.from_dict doc).created_at ≠ 0 →
        ∃ sys' d', update_config sys name newCfg = (.ok true, sys')
          ∧ storeGet sys'.store name = some d'
          ∧ (ProjectConfig.from_dict d').created_at
              = (ProjectConfig.from_dict doc).created_at
          ∧ ((ProjectConfig.from_dict doc).modified_at < sys.clock →
              (ProjectConfig.from_dict doc).modified_at
                < (ProjectConfig.from_dict d').modified_at)) := by
  refine ⟨fun hv => update_config_invalid sys name newCfg hv,
    fun hv h => update_config_missing sys name newCfg hv h,
    fun doc hv hdoc hvdoc hca => ?_⟩
  refine ⟨_, _, update_config_success sys name newCfg doc hv hdoc hvdoc,
    storeGet_storeSet_self _ _ _, ?_, ?_⟩
  · rw [from_dict_to_dict]
    show (if (ProjectConfig.from_dict doc).created_at = 0
        then sys.clock + 1 else (ProjectConfig.from_dict doc).created_at)
      = (ProjectConfig.from_dict doc).created_at
    rw [if_neg hca]
  · intro hlt
    rw [from_dict_to_dict]
    show (ProjectConfig.from_dict doc).modified_at < sys.clock + 1
    omega

/-- C5 witness: a concrete update preserving `created_at` and strictly
advancing `modified_at`. -/
theorem c5_witness :
    ∃ sys' d',
      update_config
        { store := [("p", [("name", TVal.s "n"), ("simulink_path", TVal.s "a"),
           ("matlab_code_path", TVal.s "b"), ("a2l_path", TVal.s "c"),
           ("target_path", TVal.s "d"), ("iar_project_path", TVal.s "e"),
           ("created_at", TVal.n 3), ("modified_at", TVal.n 4)])], clock := 5 }
        "p"
        { name := "n2", simulink_path := "a2", matlab_code_path := "b2",
          a2l_path := "c2", target_path := "d2", iar_project_path := "e2" }
        = (.ok true, sys')
      ∧ storeGet sys'.store "p" = some d'
      ∧ (ProjectConfig.from_dict d').created_at
          = (ProjectConfig.from_dict [("name", TVal.s "n"), ("simulink_path", TVal.s "a"),
              ("matlab_code_path", TVal.s "b"), ("a2l_path", TVal.s "c"),
              ("target_path", TVal.s "d"), ("iar_project_path", TVal.s "e"),
              ("created_at", TVal.n 3), ("modified_at", TVal.n 4)]).created_at
      ∧ ((ProjectConfig.from_dict [("name", TVal.s "n"), ("simulink_path", TVal.s "a"),
              ("matlab_code_path", TVal.s "b"), ("a2l_path", TVal.s "c"),
              ("target_path", TVal.s "d"), ("iar_project_path", TVal.s "e"),
              ("created_at", TVal.n 3), ("modified_at", TVal.n 4)]).modified_at < 5 →
          (ProjectConfig.from_dict [("name", TVal.s "n"), ("simulink_path", TVal.s "a"),
              ("matlab_code_path", TVal.s "b"), ("a2l_path", TVal.s "c"),
              ("target_path", TVal.s "d"), ("iar_project_path", TVal.s "e"),
              ("created_at", TVal.n 3), ("modified_at", TVal.n 4)]).modified_at
            < (ProjectConfig.from_dict d').modified_at) :=
  (c5_update_config_semantics _ "p" _).2.2 _ (by decide) (by decide) (by decide)
    (by decide)

/-- C8: every successful `save_config` stamps `modified_at` with the
current clock, sets `created_at` to the clock only when it was unset
(otherwise keeping the given value), and writes every other business field
exactly as given; `update_config` carries the original record's
`created_at` forward, so a set `created_at` is never overwritten. -/
theorem c8_timestamps_and_frame (sys : Sys) (config : ProjectConfig)
    (filename : String) (overwrite : Bool) (sys' : Sys) :
    (save_config sys config filename overwrite = (.ok true, sys') →
      ∃ d, storeGet sys'.store filename = some d ∧
        (ProjectConfig.from_dict d).modified_at = sys.clock ∧
        (ProjectConfig.from_dict d).created_at
          = (if config.created_at = 0 then sys.clock else config.created_at) ∧
        (config.created_at ≠ 0 →
          (ProjectConfig.from_dict d).created_at = config.created_at) ∧
        (ProjectConfig.from_dict d).name = config.name ∧
        (ProjectConfig.from_dict d).description = config.description ∧
        (ProjectConfig.from_dict d).simulink_path = config.simulink_path ∧
        (ProjectConfig.from_dict d).matlab_code_path = config.matlab_code_path ∧
        (ProjectConfig.from_dict d).a2l_path = config.a2l_path ∧
        (ProjectConfig.from_dict d).target_path = config.target_path ∧
        (ProjectConfig.from_dict d).iar_project_path = config.iar_project_path ∧
        (ProjectConfig.from_dict d).custom_params = config.custom_params ∧
        (ProjectConfig.from_dict d).workflow_id = config.workflow_id ∧
        (ProjectConfig.from_dict d).workflow_name = config.workflow_name)
    ∧ (∀ (newCfg : ProjectConfig) (doc : Doc),
        newCfg.validate_required_fields = [] →
        storeGet sys.store filename = some doc →
        (ProjectConfig.from_dict doc).validate_required_fields = [] →
        (ProjectConfig.from_dict doc).created_at ≠ 0 →
        ∃ sys'' d', update_config sys filename newCfg = (.ok true, sys'')
          ∧ storeGet sys''.store filename = some d'
          ∧ (ProjectConfig.from_dict d').created_at
              = (ProjectConfig.from_dict doc).created_at) := by
  constructor
  · intro hsave
    obtain ⟨hv, rfl⟩ := save_config_ok_true_inv sys config filename overwrite sys' hsave
    refine ⟨(stampConfig config sys.clock).to_dict, storeGet_storeSet_self _ _ _,
      ?_, ?_, ?_, ?_, ?_, ?_, ?_, ?_, ?_, ?_, ?_, ?_, ?_⟩ <;>
      rw [from_dict_to_dict]
    all_goals try rfl
    intro hca
    show (if config.created_at = 0 then sys.clock else config.created_at)
      = config.created_at
    rw [if_neg hca]
  · intro newCfg doc hv hdoc hvdoc hca
    refine ⟨_, _, update_config_success sys filename newCfg doc hv hdoc hvdoc,
      storeGet_storeSet_self _ _ _, ?_⟩
    rw [from_dict_to_dict]
    show (if (ProjectConfig.from_dict doc).created_at = 0
        then sys.clock + 1 else (ProjectConfig.from_dict doc).created_at)
      = (ProjectConfig.from_dict doc).created_at
    rw [if_neg hca]

/-- C8 witness: a concrete save with a pre-set `created_at` followed by an
update; the stored timestamps behave as stated. -/
theorem c8_witness :
    ∃ d, storeGet (save_config { store := [], clock := 9 }
        { name := "n", simulink_path := "a", matlab_code_path := "b",
          a2l_path := "c", target_path := "d", iar_project_path := "e",
          created_at := 4 } "w" true).2.store "w" = some d ∧
      (ProjectConfig.from_dict d).modified_at = 9 ∧
      (ProjectConfig.from_dict d).created_at = (if (4 : Nat) = 0 then 9 else 4) ∧
      ((4 : Nat) ≠ 0 → (ProjectConfig.from_dict d).created_at = 4) ∧
      (ProjectConfig.from_dict d).name = "n" ∧
      (ProjectConfig.from_dict d).description = "" ∧
      (ProjectConfig.from_dict d).simulink_path = "a" ∧
      (ProjectConfig.from_dict d).matlab_code_path = "b" ∧
      (ProjectConfig.from_dict d).a2l_path = "c" ∧
      (ProjectConfig.from_dict d).target_path = "d" ∧
      (ProjectConfig.from_dict d).iar_project_path = "e" ∧
      (ProjectConfig.from_dict d).custom_params = [] ∧
      (ProjectConfig.from_dict d).workflow_id = "" ∧
      (ProjectConfig.from_dict d).workflow_name = "" :=
  (c8_timestamps_and_frame { store := [], clock := 9 }
    { name := "n", simulink_path := "a", matlab_code_path := "b",
      a2l_path := "c", target_path := "d", iar_project_path := "e",
      created_at := 4 } "w" true _).1 rfl

/-! ## Lemmas: DFS cycle detection (claims C2, C10)

The proofs follow the classic three-colour argument: `recStack` is the grey
path, `visited \ recStack` are the black (finished) nodes.  Three
inductions over the fuel establish (1) the fuel bound `checkFuel` is never
exhausted, (2) a `true` answer exhibits a cycle through the grey path, and
(3) a `false` answer keeps the black set edge-closed and cycle-free. -/

theorem unvisitedWeight_le_of_subset (g : List (String × List String))
    (U : Finset String) {v v' : List String} (h : v ⊆ v') :
    unvisitedWeight g U v' ≤ unvisitedWeight g U v := by
  unfold unvisitedWeight
  apply Finset.sum_le_sum_of_subset
  intro x hx
  simp only [Finset.mem_filter] at hx ⊢
  exact ⟨hx.1, fun hc => hx.2 (h hc)⟩

theorem unvisitedWeight_cons (g : List (String × List String))
    (U : Finset String) (node : String) (v : List String)
    (hU : node ∈ U) (hv : node ∉ v) :
    unvisitedWeight g U (node :: v) + (1 + (depsOf g node).length)
      = unvisitedWeight g U v := by
  unfold unvisitedWeight
  have hmem : node ∈ U.filter (fun n => n ∉ v) := by
    simp only [Finset.mem_filter]
    exact ⟨hU, hv⟩
  have hfil : U.filter (fun n => n ∉ node :: v)
      = (U.filter (fun n => n ∉ v)).erase node := by
    ext x
    simp only [Finset.mem_filter, Finset.mem_erase, List.mem_cons]
    constructor
    · intro ⟨hxU, hx⟩
      push_neg at hx
      exact ⟨hx.1, hxU, hx.2⟩
    · intro ⟨hne, hxU, hx⟩
      refine ⟨hxU, ?_⟩
      push_neg
      exact ⟨hne, hx⟩
  rw [hfil, add_comm]
  exact Finset.add_sum_erase _ (fun n => 1 + (depsOf g n).length) hmem

theorem dfsRun_some (g : List (String × List String)) (U : Finset String)
    (HG : ∀ n m, m ∈ depsOf g n → m ∈ U) :
    ∀ (fuel : Nat) (pending visited recStack : List String),
      (∀ n ∈ pending, n ∈ U) →
      unvisitedWeight g U visited + pending.length + 1 ≤ fuel →
      ∃ b visited', dfsRun g fuel pending visited recStack = some (b, visited')
        ∧ visited ⊆ visited' := by
  intro fuel
  induction fuel with
  | zero => intro pending visited recStack _ hfuel; omega
  | succ fuel ih =>
    intro pending visited recStack hpend hfuel
    match pending with
    | [] => exact ⟨false, visited, rfl, fun _ h => h⟩
    | node :: rest =>
      rw [dfsRun]
      by_cases hrs : node ∈ recStack
      · rw [if_pos hrs]
        exact ⟨true, visited, rfl, fun _ h => h⟩
      · rw [if_neg hrs]
        by_cases hvis : node ∈ visited
        · rw [if_pos hvis]
          apply ih rest visited recStack (fun n hn => hpend n (.tail _ hn))
          simp only [List.length_cons] at hfuel
          omega
        · rw [if_neg hvis]
          have hUnode : node ∈ U := hpend node (.head _)
          have hw := unvisitedWeight_cons g U node visited hUnode hvis
          obtain ⟨b1, v1, hrun1, hsub1⟩ :=
            ih (depsOf g node) (node :: visited) (node :: recStack)
              (fun m hm => HG node m hm)
              (by simp only [List.length_cons] at hfuel ⊢; omega)
          rw [hrun1]
          match b1, hrun1 with
          | true, _ => exact ⟨true, v1, rfl, fun x hx => hsub1 (.tail _ hx)⟩
          | false, hrun1 =>
            have hle : unvisitedWeight g U v1 ≤ unvisitedWeight g U (node :: visited) :=
              unvisitedWeight_le_of_subset g U hsub1
            obtain ⟨b2, v2, hrun2, hsub2⟩ :=
              ih rest v1 recStack (fun n hn => hpend n (.tail _ hn))
                (by simp only [List.length_cons] at hfuel; omega)
            refine ⟨b2, v2, ?_, fun x hx => hsub2 (hsub1 (.tail _ hx))⟩
            show dfsRun g fuel rest v1 recStack = some (b2, v2)
            exact hrun2

theorem depsOf_subset_universe (stages : List CStage) :
    ∀ n m, m ∈ depsOf (graphOf stages) n → m ∈ nodeUniverse stages := by
  intro n m hm
  unfold depsOf at hm
  unfold nodeUniverse
  match hfind : (graphOf stages).reverse.find? (fun p => p.1 == n) with
  | none => rw [hfind] at hm; cases hm
  | some p =>
    rw [hfind] at hm
    have hm' : m ∈ p.2 := hm
    have hp : p ∈ (graphOf stages).reverse := List.mem_of_find?_eq_some hfind
    rw [List.mem_reverse] at hp
    unfold graphOf at hp
    obtain ⟨s, hs, hps⟩ := List.mem_map.mp hp
    simp only [List.mem_toFinset, List.mem_append]
    right
    rw [List.mem_flatMap]
    exact ⟨s, hs, by rw [← hps] at hm'; exact hm'⟩

theorem mem_pyKeys_iff (l : List String) (n : String) :
    n ∈ pyKeys l ↔ n ∈ l := by
  induction l with
  | nil => simp [pyKeys]
  | cons x xs ih =>
    simp only [pyKeys, List.mem_cons, List.mem_filter]
    constructor
    · rintro (rfl | ⟨h, _⟩)
      · exact .inl rfl
      · exact .inr (ih.mp h)
    · intro h
      by_cases hx : n = x
      · exact .inl hx
      · rcases h with rfl | h
        · exact .inl rfl
        · exact .inr ⟨ih.mpr h, by simpa using hx⟩

theorem check_run_some (stages : List CStage) :
    ∃ b visited', dfsRun (graphOf stages) (checkFuel stages)
        (pyKeys (stages.map (·.id))) [] [] = some (b, visited')
      ∧ check_circular_dependencies stages = b := by
  obtain ⟨b, v, hrun, _⟩ := dfsRun_some (graphOf stages) (nodeUniverse stages)
    (depsOf_subset_universe stages) (checkFuel stages)
    (pyKeys (stages.map (·.id))) [] []
    (fun n hn => by
      rw [mem_pyKeys_iff] at hn
      unfold nodeUniverse
      simp only [List.mem_toFinset, List.mem_append]
      exact .inl hn)
    (by unfold checkFuel; omega)
  refine ⟨b, v, hrun, ?_⟩
  unfold check_circular_dependencies
  dsimp only
  rw [hrun]

theorem chain_to_head (g : List (String × List String)) :
    ∀ (t : List String) (h : String),
      (h :: t).Chain' (fun a b => GEdge g b a) →
      ∀ n ∈ h :: t, Relation.ReflTransGen (GEdge g) n h := by
  intro t
  induction t with
  | nil =>
    intro h _ n hn
    rcases List.mem_cons.mp hn with rfl | hn'
    · exact .refl
    · cases hn'
  | cons y ys ih =>
    intro h hchain n hn
    rcases List.mem_cons.mp hn with rfl | hn'
    · exact .refl
    · have hedge : GEdge g y h := (List.chain'_cons.mp hchain).1
      exact ((ih y (List.chain'_cons.mp hchain).2) n hn').tail hedge

theorem dfsRun_true_cycle (g : List (String × List String)) :
    ∀ (fuel : Nat) (pending visited recStack v' : List String),
      List.Chain' (fun a b => GEdge g b a) recStack →
      (∀ h t, recStack = h :: t → ∀ n ∈ pending, GEdge g h n) →
      dfsRun g fuel pending visited recStack = some (true, v') →
      ∃ m, Relation.TransGen (GEdge g) m m := by
  intro fuel
  induction fuel with
  | zero => intro pending visited recStack v' _ _ h; cases h
  | succ fuel ih =>
    intro pending visited recStack v' hchain hpend hrun
    match pending with
    | [] =>
      rw [dfsRun] at hrun
      simp at hrun
    | node :: rest =>
      rw [dfsRun] at hrun
      by_cases hrs : node ∈ recStack
      · obtain ⟨h0, t0, rfl⟩ : ∃ h0 t0, recStack = h0 :: t0 := by
          cases recStack with
          | nil => cases hrs
          | cons a b => exact ⟨a, b, rfl⟩
        have hedge : GEdge g h0 node := hpend h0 t0 rfl node (.head _)
        have hpath : Relation.ReflTransGen (GEdge g) node h0 :=
          chain_to_head g t0 h0 hchain node hrs
        exact ⟨node, Relation.TransGen.tail' hpath hedge⟩
      · rw [if_neg hrs] at hrun
        by_cases hvis : node ∈ visited
        · rw [if_pos hvis] at hrun
          exact ih rest visited recStack v' hchain
            (fun h t ht n hn => hpend h t ht n (.tail _ hn)) hrun
        · rw [if_neg hvis] at hrun
          match hchild : dfsRun g fuel (depsOf g node) (node :: visited)
              (node :: recStack) with
          | none => rw [hchild] at hrun; cases hrun
          | some (true, v1) =>
            have hchain' : List.Chain' (fun a b => GEdge g b a) (node :: recStack) := by
              cases recStack with
              | nil => simp
              | cons h0 t0 =>
                rw [List.chain'_cons]
                exact ⟨hpend h0 t0 rfl node (.head _), hchain⟩
            exact ih (depsOf g node) (node :: visited) (node :: recStack) v1 hchain'
              (fun h t ht n hn => by
                injection ht with h1 h2
                subst h1
                exact hn)
              hchild
          | some (false, v1) =>
            rw [hchild] at hrun
            exact ih rest v1 recStack v' hchain
              (fun h t ht n hn => hpend h t ht n (.tail _ hn)) hrun

/-- The black (finished) nodes — visited and off the recursion stack — have
all their dependency edges pointing back into the black set. -/
def BlackClosed (g : List (String × List String))
    (visited recStack : List String) : Prop :=
  ∀ b ∈ visited, b ∉ recStack → ∀ d, GEdge g b d → d ∈ visited ∧ d ∉ recStack

/-- No black node lies on a dependency cycle. -/
def BlackAcyclic (g : List (String × List String))
    (visited recStack : List String) : Prop :=
  ∀ b ∈ visited, b ∉ recStack → ¬ Relation.TransGen (GEdge g) b b

theorem black_closed_rtg (g : List (String × List String))
    (visited recStack : List String) (B : BlackClosed g visited recStack) :
    ∀ a c, Relation.ReflTransGen (GEdge g) a c →
      a ∈ visited → a ∉ recStack → c ∈ visited ∧ c ∉ recStack := by
  intro a c h
  induction h with
  | refl => intro h1 h2; exact ⟨h1, h2⟩
  | tail hab hedge ih =>
    intro h1 h2
    obtain ⟨hb1, hb2⟩ := ih h1 h2
    exact B _ hb1 hb2 _ hedge

theorem dfsRun_false_inv (g : List (String × List String)) :
    ∀ (fuel : Nat) (pending visited recStack v' : List String),
      BlackClosed g visited recStack →
      BlackAcyclic g visited recStack →
      dfsRun g fuel pending visited recStack = some (false, v') →
      BlackClosed g v' recStack ∧ BlackAcyclic g v' recStack ∧
        visited ⊆ v' ∧ ∀ n ∈ pending, n ∈ v' ∧ n ∉ recStack := by
  intro fuel
  induction fuel with
  | zero => intro pending visited recStack v' _ _ h; cases h
  | succ fuel ih =>
    intro pending visited recStack v' hB hA hrun
    match pending with
    | [] =>
      rw [dfsRun] at hrun
      simp only [Option.some.injEq, Prod.mk.injEq] at hrun
      obtain ⟨-, rfl⟩ := hrun
      exact ⟨hB, hA, fun _ h => h, fun n hn => absurd hn (List.not_mem_nil n)⟩
    | node :: rest =>
      rw [dfsRun] at hrun
      by_cases hrs : node ∈ recStack
      · rw [if_pos hrs] at hrun
        simp at hrun
      · rw [if_neg hrs] at hrun
        by_cases hvis : node ∈ visited
        · rw [if_pos hvis] at hrun
          obtain ⟨hB', hA', hsub, hpend⟩ := ih rest visited recStack v' hB hA hrun
          refine ⟨hB', hA', hsub, fun n hn => ?_⟩
          rcases List.mem_cons.mp hn with rfl | hn'
          · exact ⟨hsub hvis, hrs⟩
          · exact hpend n hn'
        · rw [if_neg hvis] at hrun
          match hchild : dfsRun g fuel (depsOf g node) (node :: visited)
              (node :: recStack) with
          | none => rw [hchild] at hrun; cases hrun
          | some (true, v1) => rw [hchild] at hrun; simp at hrun
          | some (false, v1) =>
            rw [hchild] at hrun
            have hBc : BlackClosed g (node :: visited) (node :: recStack) := by
              intro b hb hbs d hd
              have hbne : b ≠ node := fun hc => hbs (hc ▸ List.mem_cons_self _ _)
              have hb' : b ∈ visited := by
                rcases List.mem_cons.mp hb with rfl | h
                · exact absurd rfl hbne
                · exact h
              have hbs' : b ∉ recStack := fun hc => hbs (List.mem_cons_of_mem _ hc)
              obtain ⟨hd1, hd2⟩ := hB b hb' hbs' d hd
              refine ⟨List.mem_cons_of_mem _ hd1, ?_⟩
              intro hc
              rcases List.mem_cons.mp hc with rfl | h
              · exact hvis hd1
              · exact hd2 h
            have hAc : BlackAcyclic g (node :: visited) (node :: recStack) := by
              intro b hb hbs
              have hbne : b ≠ node := fun hc => hbs (hc ▸ List.mem_cons_self _ _)
              have hb' : b ∈ visited := by
                rcases List.mem_cons.mp hb with rfl | h
                · exact absurd rfl hbne
                · exact h
              exact hA b hb' (fun hc => hbs (List.mem_cons_of_mem _ hc))
            obtain ⟨hB1, hA1, hsub1, hdeps1⟩ :=
              ih (depsOf g node) (node :: visited) (node :: recStack) v1 hBc hAc hchild
            have hnodev1 : node ∈ v1 := hsub1 (List.mem_cons_self _ _)
            have hB2 : BlackClosed g v1 recStack := by
              intro b hb hbs d hd
              by_cases hbn : b = node
              · subst hbn
                obtain ⟨hd1, hd2⟩ := hdeps1 d hd
                exact ⟨hd1, fun hc => hd2 (List.mem_cons_of_mem _ hc)⟩
              · obtain ⟨hd1, hd2⟩ := hB1 b hb
                  (fun hc => (List.mem_cons.mp hc).elim hbn hbs) d hd
                exact ⟨hd1, fun hc => hd2 (List.mem_cons_of_mem _ hc)⟩
            have hA2 : BlackAcyclic g v1 recStack := by
              intro b hb hbs
              by_cases hbn : b = node
              · intro hT
                rw [hbn] at hT
                rcases Relation.TransGen.head'_iff.mp hT with ⟨c, hd, hrt⟩
                obtain ⟨hc1, hc2⟩ := hdeps1 c hd
                obtain ⟨-, h2⟩ := black_closed_rtg g v1 (node :: recStack) hB1 c node
                  hrt hc1 hc2
                exact h2 (List.mem_cons_self _ _)
              · exact hA1 b hb (fun hc => (List.mem_cons.mp hc).elim hbn hbs)
            obtain ⟨hB3, hA3, hsub3, hpend3⟩ := ih rest v1 recStack v' hB2 hA2 hrun
            refine ⟨hB3, hA3,
              fun x hx => hsub3 (hsub1 (List.mem_cons_of_mem _ hx)),
              fun n hn => ?_⟩
            rcases List.mem_cons.mp hn with rfl | hn'
            · exact ⟨hsub3 hnodev1, hrs⟩
            · exact hpend3 n hn'

theorem mem_ids_of_edge (stages : List CStage) (a b : String)
    (h : GEdge (graphOf stages) a b) : a ∈ stages.map (·.id) := by
  unfold GEdge depsOf at h
  match hfind : (graphOf stages).reverse.find? (fun p => p.1 == a) with
  | none => rw [hfind] at h; cases h
  | some p =>
    have hp : p ∈ (graphOf stages).reverse := List.mem_of_find?_eq_some hfind
    have hpa : (p.1 == a) = true := by
      have hx := List.find?_some hfind
      exact hx
    rw [List.mem_reverse] at hp
    unfold graphOf at hp
    obtain ⟨s, hs, hps⟩ := List.mem_map.mp hp
    have hid : s.id = a := by
      rw [← hps] at hpa
      exact beq_iff_eq.mp hpa
    exact List.mem_map.mpr ⟨s, hs, hid⟩

/-- `_check_circular_dependencies` answers `true` exactly when the
dependency graph has a directed cycle. -/
theorem check_circular_iff (stages : List CStage) :
    check_circular_dependencies stages = true ↔ HasCycle stages := by
  obtain ⟨b, v, hrun, hcheck⟩ := check_run_some stages
  constructor
  · intro h
    have hb : b = true := hcheck.symm.trans h
    subst hb
    exact dfsRun_true_cycle (graphOf stages) (checkFuel stages)
      (pyKeys (stages.map (·.id))) [] [] v (by simp)
      (fun h t ht => by cases ht) hrun
  · rintro ⟨n, hT⟩
    cases b with
    | true => exact hcheck
    | false =>
      exfalso
      obtain ⟨-, hA, -, hpend⟩ := dfsRun_false_inv (graphOf stages)
        (checkFuel stages) (pyKeys (stages.map (·.id))) [] [] v
        (fun x hx => (List.not_mem_nil x hx).elim)
        (fun x hx => (List.not_mem_nil x hx).elim) hrun
      obtain ⟨d, hd, -⟩ := Relation.TransGen.head'_iff.mp hT
      have hids : n ∈ stages.map (·.id) := mem_ids_of_edge stages n d hd
      obtain ⟨hnv, -⟩ := hpend n ((mem_pyKeys_iff _ n).mpr hids)
      exact hA n hnv (List.not_mem_nil n) hT

/-- C2: `_check_circular_dependencies` returns `True` iff the dependency
graph has a cycle; in particular A→B→C→A is reported cyclic, the diamond
A→B, A→C is not, and — because traversal restarts from every declared
stage id — a cycle in a component no declared stage depends on is still
found. -/
theorem c2_cycle_detection_iff :
    (∀ stages : List CStage,
      check_circular_dependencies stages = true ↔ HasCycle stages)
    ∧ check_circular_dependencies
        [⟨"A", ["B"]⟩, ⟨"B", ["C"]⟩, ⟨"C", ["A"]⟩] = true
    ∧ check_circular_dependencies
        [⟨"A", ["B", "C"]⟩, ⟨"B", []⟩, ⟨"C", []⟩] = false
    ∧ check_circular_dependencies
        [⟨"root", []⟩, ⟨"x", ["y"]⟩, ⟨"y", ["x"]⟩] = true :=
  ⟨check_circular_iff, by decide, by decide, by decide⟩

/-! ## Lemmas: the custom-workflow loader (claims C3, C6, C10) -/

theorem loadCW_checks (path : String) (data : WorkflowDoc)
    (stages : List StageDoc)
    (h1 : data.wname.isSome = true) (h2 : data.description.isSome = true)
    (h3 : data.stages = some (some stages)) (h4 : stages ≠ [])
    (h5 : checkStageFields 0 stages = none) :
    load_custom_workflow path (.parsed data) =
      (if check_circular_dependencies (toCStages stages) then
        ((none : Option WorkflowConfig),
         some "检测到循环依赖，请检查stages的dependencies配置")
       else
         match firstUndeclaredDep (stages.map fun s => s.id.getD "") 0 stages with
         | some sd => (none, some (undeclaredDepMsg sd.1 sd.2))
         | none =>
           if stages.filter (fun s => (s.enabled).getD false) = [] then
             (none, some "至少需要启用一个阶段")
           else
             (some
               { id := data.wid.getD "custom"
                 name := data.wname.getD ""
                 description := data.description.getD ""
                 estimated_time := data.estimated_time.getD 0
                 stages := stages.map convertStage },
              none)) := by
  have e1 : topHasKey data "name" = data.wname.isSome := rfl
  have e2 : topHasKey data "description" = data.description.isSome := rfl
  have e3 : topHasKey data "stages" = (data.stages).isSome := rfl
  unfold load_custom_workflow
  dsimp only
  have hmf : (["name", "description", "stages"].filter
      fun f => !topHasKey data f) = [] := by
    simp [List.filter, e1, e2, e3, h1, h2, h3]
  rw [if_neg (by simp [hmf])]
  rw [h3]
  dsimp only
  rw [if_neg h4, h5]

/-- C6: once a custom-workflow document has passed the structural checks,
the remaining validations run in the fixed order cycle check, then
referential integrity, then the enabled-stage check, each stopping the
pipeline: a cyclic document is rejected with the cycle message regardless
of later defects; an undeclared dependency id is reported with a message
containing that id; and an all-disabled document is rejected with the
explicit "at least one stage must be enabled" message. -/
theorem c6_validation_order (path : String) (data : WorkflowDoc)
    (stages : List StageDoc)
    (h1 : data.wname.isSome = true) (h2 : data.description.isSome = true)
    (h3 : data.stages = some (some stages)) (h4 : stages ≠ [])
    (h5 : checkStageFields 0 stages = none) :
    (check_circular_dependencies (toCStages stages) = true →
      load_custom_workflow path (.parsed data)
        = (none, some "检测到循环依赖，请检查stages的dependencies配置"))
    ∧ (∀ sid dep, check_circular_dependencies (toCStages stages) = false →
        firstUndeclaredDep (stages.map fun s => s.id.getD "") 0 stages
          = some (sid, dep) →
        load_custom_workflow path (.parsed data)
          = (none, some (undeclaredDepMsg sid dep))
        ∧ ContainsStr (undeclaredDepMsg sid dep) dep)
    ∧ (check_circular_dependencies (toCStages stages) = false →
        firstUndeclaredDep (stages.map fun s => s.id.getD "") 0 stages = none →
        stages.filter (fun s => (s.enabled).getD false) = [] →
        load_custom_workflow path (.parsed data)
          = (none, some "至少需要启用一个阶段")) := by
  rw [loadCW_checks path data stages h1 h2 h3 h4 h5]
  refine ⟨fun hc => ?_, fun sid dep hc hdep => ?_, fun hc hdep hen => ?_⟩
  · rw [if_pos hc]
  · rw [if_neg (by simp [hc]), hdep]
    exact ⟨rfl, ⟨"阶段 " ++ sid ++ " 的依赖 '", "' 不存在", rfl⟩⟩
  · rw [if_neg (by simp [hc]), hdep]
    dsimp only
    rw [if_pos hen]

/-- C6 witness: a concrete document whose only remaining defect is the
undeclared dependency `z`, and a concrete all-disabled document. -/
theorem c6_witness :
    (load_custom_workflow "w.json" (.parsed
        { wname := some "wf", description := some "d",
          stages := some (some
            [{ id := some "a", sname := some "A", enabled := some true,
               dependencies := some (some []) },
             { id := some "b", sname := some "B", enabled := some true,
               dependencies := some (some ["z"]) }]) })
      = (none, some (undeclaredDepMsg "b" "z"))
      ∧ ContainsStr (undeclaredDepMsg "b" "z") "z")
    ∧ (load_custom_workflow "w.json" (.parsed
        { wname := some "wf", description := some "d",
          stages := some (some
            [{ id := some "a", sname := some "A", enabled := some false,
               dependencies := some (some []) }]) })
      = (none, some "至少需要启用一个阶段")) :=
  ⟨(c6_validation_order "w.json" _ _ (by decide) (by decide) rfl (by decide)
      (by decide)).2.1 "b" "z" (by decide) (by decide),
   (c6_validation_order "w.json" _ _ (by decide) (by decide) rfl (by decide)
      (by decide)).2.2 (by decide) (by decide) (by decide)⟩

/-- C3: for every file input, `load_custom_workflow` returns a pair and
raises nothing: either `(some workflow, none)` or `(none, some message)`;
and on success each input stage becomes a `StageConfig` whose `name` is the
input stage's `id` (not its `name`), with `timeout` defaulting to 300, the
workflow `id` defaulting to the literal `"custom"`, and `estimated_time`
defaulting to 0. -/
theorem c3_loader_contract (path : String) (input : FileInput) :
    ((∃ w, load_custom_workflow path input = (some w, none))
      ∨ (∃ m, load_custom_workflow path input = (none, some m)))
    ∧ (∀ w, load_custom_workflow path input = (some w, none) →
        ∃ data stages, input = .parsed data
          ∧ data.stages = some (some stages)
          ∧ w.id = data.wid.getD "custom"
          ∧ w.name = data.wname.getD ""
          ∧ w.description = data.description.getD ""
          ∧ w.estimated_time = data.estimated_time.getD 0
          ∧ w.stages = stages.map fun s =>
              { name := s.id.getD "", enabled := (s.enabled).getD false,
                timeout := (s.timeout).getD 300 }) := by
  cases input with
  | missing =>
    exact ⟨.inr ⟨_, rfl⟩, fun w hw => absurd hw (by simp [load_custom_workflow])⟩
  | badEncoding =>
    exact ⟨.inr ⟨_, rfl⟩, fun w hw => absurd hw (by simp [load_custom_workflow])⟩
  | badJson detail =>
    exact ⟨.inr ⟨_, rfl⟩, fun w hw => absurd hw (by simp [load_custom_workflow])⟩
  | parsed data =>
    constructor
    · unfold load_custom_workflow
      dsimp only
      split
      · exact .inr ⟨_, rfl⟩
      · split
        · exact .inr ⟨_, rfl⟩
        · exact .inr ⟨_, rfl⟩
        · split
          · exact .inr ⟨_, rfl⟩
          · split
            · exact .inr ⟨_, rfl⟩
            · split
              · exact .inr ⟨_, rfl⟩
              · split
                · exact .inr ⟨_, rfl⟩
                · split
                  · exact .inr ⟨_, rfl⟩
                  · exact .inl ⟨_, rfl⟩
    · intro w hw
      unfold load_custom_workflow at hw
      dsimp only at hw
      split at hw
      · exact absurd hw (by simp)
      · split at hw
        · exact absurd hw (by simp)
        · exact absurd hw (by simp)
        · rename_i stages hstages
          split at hw
          · exact absurd hw (by simp)
          · split at hw
            · exact absurd hw (by simp)
            · split at hw
              · exact absurd hw (by simp)
              · split at hw
                · exact absurd hw (by simp)
                · split at hw
                  · exact absurd hw (by simp)
                  · simp only [Prod.mk.injEq, Option.some.injEq] at hw
                    obtain ⟨rfl, -⟩ := hw
                    exact ⟨data, stages, rfl, hstages, rfl, rfl, rfl, rfl, rfl⟩

/-- C3 witness: a concrete successful load exhibiting the conversion
defaults. -/
theorem c3_witness :
    ∃ data stages,
      (FileInput.parsed
        { wname := some "wf", description := some "d",
          stages := some (some
            [{ id := some "s1", sname := some "Stage One", enabled := some true,
               dependencies := some (some []) }]) } : FileInput)
        = .parsed data
      ∧ data.stages = some (some stages)
      ∧ ({ id := "custom", name := "wf", description := "d",
           estimated_time := 0,
           stages := [{ name := "s1", enabled := true, timeout := 300 }] }
          : WorkflowConfig).id = data.wid.getD "custom"
      ∧ ({ id := "custom", name := "wf", description := "d",
           estimated_time := 0,
           stages := [{ name := "s1", enabled := true, timeout := 300 }] }
          : WorkflowConfig).name = data.wname.getD ""
      ∧ ({ id := "custom", name := "wf", description := "d",
           estimated_time := 0,
           stages := [{ name := "s1", enabled := true, timeout := 300 }] }
          : WorkflowConfig).description = data.description.getD ""
      ∧ ({ id := "custom", name := "wf", description := "d",
           estimated_time := 0,
           stages := [{ name := "s1", enabled := true, timeout := 300 }] }
          : WorkflowConfig).estimated_time = data.estimated_time.getD 0
      ∧ ({ id := "custom", name := "wf", description := "d",
           estimated_time := 0,
           stages := [{ name := "s1", enabled := true, timeout := 300 }] }
          : WorkflowConfig).stages = stages.map fun s =>
            { name := s.id.getD "", enabled := (s.enabled).getD false,
              timeout := (s.timeout).getD 300 } :=
  (c3_loader_contract "w.json" (.parsed
    { wname := some "wf", description := some "d",
      stages := some (some
        [{ id := some "s1", sname := some "Stage One", enabled := some true,
           dependencies := some (some []) }]) })).2
    { id := "custom", name := "wf", description := "d",
      estimated_time := 0,
      stages := [{ name := "s1", enabled := true, timeout := 300 }] } rfl

/-- C10: `_check_circular_dependencies` always terminates with a Boolean
(the DFS never exhausts its fuel), an id no stage declares is traversed as
a node with an empty dependency list, a `true` answer always comes from a
genuine cycle (so an undeclared id alone never triggers one), and a
document whose only remaining defect is an undeclared dependency id passes
the cycle check and is rejected by the subsequent referential-integrity
check. -/
theorem c10_undeclared_dependency_safety :
    (∀ stages : List CStage, ∃ b visited',
      dfsRun (graphOf stages) (checkFuel stages)
        (pyKeys (stages.map (·.id))) [] [] = some (b, visited')
      ∧ check_circular_dependencies stages = b)
    ∧ (∀ (stages : List CStage) (n : String),
        n ∉ stages.map (·.id) → depsOf (graphOf stages) n = [])
    ∧ (∀ stages : List CStage,
        check_circular_dependencies stages = true → HasCycle stages)
    ∧ (∀ (path : String) (data : WorkflowDoc) (stages : List StageDoc)
        (sid dep : String),
        data.wname.isSome = true → data.description.isSome = true →
        data.stages = some (some stages) → stages ≠ [] →
        checkStageFields 0 stages = none →
        ¬ HasCycle (toCStages stages) →
        firstUndeclaredDep (stages.map fun s => s.id.getD "") 0 stages
          = some (sid, dep) →
        load_custom_workflow path (.parsed data)
          = (none, some (undeclaredDepMsg sid dep))) := by
  refine ⟨check_run_some, ?_, fun stages h => (check_circular_iff stages).mp h, ?_⟩
  · intro stages n hn
    unfold depsOf
    have hnone : (graphOf stages).reverse.find? (fun p => p.1 == n) = none := by
      rw [List.find?_eq_none]
      intro p hp
      rw [List.mem_reverse] at hp
      obtain ⟨s, hs, rfl⟩ := List.mem_map.mp hp
      intro hb
      exact hn (List.mem_map.mpr ⟨s, hs, beq_iff_eq.mp hb⟩)
    rw [hnone]
    rfl
  · intro path data stages sid dep h1 h2 h3 h4 h5 hnc hdep
    have hcf : check_circular_dependencies (toCStages stages) = false := by
      rcases Bool.eq_false_or_eq_true
          (check_circular_dependencies (toCStages stages)) with h | h
      · exact absurd ((check_circular_iff _).mp h) hnc
      · exact h
    rw [loadCW_checks path data stages h1 h2 h3 h4 h5,
      if_neg (by simp [hcf]), hdep]

/-- C10 witness: an undeclared id is a dependency-free node, a self-loop is
a genuine cycle, and a document whose only defect is the undeclared
dependency `ghost` is rejected by the referential check. -/
theorem c10_witness :
    depsOf (graphOf [⟨"p", ["ghost"]⟩]) "ghost" = []
    ∧ HasCycle [⟨"x", ["x"]⟩]
    ∧ load_custom_workflow "c.json" (.parsed
        { wname := some "wf", description := some "d",
          stages := some (some
            [{ id := some "p", sname := some "P", enabled := some true,
               dependencies := some (some []) },
             { id := some "q", sname := some "Q", enabled := some true,
               dependencies := some (some ["ghost"]) }]) })
      = (none, some (undeclaredDepMsg "q" "ghost")) :=
  ⟨c10_undeclared_dependency_safety.2.1 [⟨"p", ["ghost"]⟩] "ghost" (by decide),
   c10_undeclared_dependency_safety.2.2.1 [⟨"x", ["x"]⟩] (by decide),
   c10_undeclared_dependency_safety.2.2.2 "c.json" _ _ "q" "ghost"
     (by decide) (by decide) rfl (by decide) (by decide)
     (fun hc => absurd ((check_circular_iff _).mpr hc) (by decide))
     (by decide)⟩

end MBD
